import Mathlib

set_option maxHeartbeats 1000000

/-!
Verification development for the call orchestration and failure-replay
pipeline of `src/src/call.rs` (tonos-cli).

The Rust source is shallowly embedded: pure helpers become Lean functions;
the effectful pipeline (`call_contract_with_client` and its callees) is
embedded as a function from an explicit environment (an oracle supplying
the results of every external call: SDK encode/send/wait/process, account
queries, the executor, cell construction) to a result paired with an event
trace recording, in order, every externally visible action (network calls,
console prints, executor invocations, the debug replay).  External crates
(ton_client, ton_block, ton_abi, serde_json, ed25519) are out of scope per
the specification and are represented by opaque environment functions or
opaque handles; everything that `call.rs` itself decides (branching,
ordering, message construction, error strings) is modelled faithfully.
-/

namespace TonosCall

/-- Model of `serde_json::Value`. Objects are association lists. -/
inductive Json where
  | null
  | bool (b : Bool)
  | num (n : Int)
  | str (s : String)
  | arr (elems : List Json)
  | obj (fields : List (String × Json))

/-- Model of `ton_client::error::ClientError`: the numeric error code and
its human-readable message. -/
structure ClientError where
  code : Nat
  message : String
deriving DecidableEq

/-- Rendering of a `ClientError` (Rust `format!` with the alternate flag);
the Display implementation is external, so the rendered text is taken to be
the carried message. -/
def fmtClientError (e : ClientError) : String := e.message

/-- Rust `str::trim_start_matches(c)` for a single-char pattern: drop every
leading occurrence of `c`. -/
def trimStartChar (c : Char) (s : String) : String :=
  ⟨s.data.dropWhile (· == c)⟩

/-- Rust `str::trim_end_matches(c)` for a single-char pattern: drop every
trailing occurrence of `c`. -/
def trimEndChar (c : Char) (s : String) : String :=
  ⟨(s.data.reverse.dropWhile (· == c)).reverse⟩

/-- Rust `str::trim_matches(c)`: drop every leading and trailing
occurrence of `c`. -/
def trimBothChar (c : Char) (s : String) : String :=
  trimEndChar c (trimStartChar c s)

/-- Rust `str::ends_with(c)` for a char pattern: the last character is `c`. -/
def endsWithChar (c : Char) (s : String) : Bool :=
  s.data.getLast? == some c

/-- `parse_integer_param` (src/src/call.rs:155-163): trim surrounding
double quotes; a value ending in `T` is routed through the external token
convertor (`convert::convert_token`, supplied as `convert_token`) with the
trailing `T`s removed, anything else is returned as-is. -/
def parse_integer_param (convert_token : String → Except String String)
    (value : String) : Except String String :=
  let value := trimBothChar '"' value
  if endsWithChar 'T' value then
    convert_token (trimEndChar 'T' value)
  else
    .ok value

/-- Model of `ton_abi::ParamType` (the cases `build_json_from_params`
distinguishes; every other case is collapsed into `other`). -/
inductive ParamType where
  | uint (size : Nat)
  | int (size : Nat)
  | array (elem : ParamType)
  | other (descr : String)
deriving DecidableEq

/-- Display rendering of a `ParamType` (external `ton_abi` Display,
modelled; only its occurrence inside error texts matters here). -/
def ParamType.render : ParamType → String
  | .uint n => "uint" ++ toString n
  | .int n => "int" ++ toString n
  | .array t => ParamType.render t ++ "[]"
  | .other s => s

/-- One declared ABI input parameter (name and type), as produced by the
external `Contract::load(..).functions()[method].input_params()`. -/
structure Param where
  name : String
  kind : ParamType
deriving DecidableEq

/-- Error text of src/src/call.rs:176. -/
def argNotFoundMsg (p : Param) : String :=
  "argument \"" ++ p.name ++ "\" of type \"" ++ p.kind.render ++ "\" not found"

/-- Error text of src/src/call.rs:179. -/
def argNoValueMsg (p : Param) : String :=
  "argument \"" ++ p.name ++ "\" of type \"" ++ p.kind.render ++ "\" has no value"

/-- The delimiters of the array split in src/src/call.rs:189. -/
def isDelim (c : Char) : Bool :=
  c == ',' || c == '[' || c == ']'

/-- Rust `str::split` with the delimiter predicate of
src/src/call.rs:189 (keeps empty pieces, like Rust's `split`). -/
def splitDelimsAux : List Char → List Char → List (List Char)
  | [], acc => [acc.reverse]
  | c :: rest, acc =>
    if isDelim c then acc.reverse :: splitDelimsAux rest []
    else splitDelimsAux rest (c :: acc)

def splitDelims (s : String) : List String :=
  (splitDelimsAux s.data []).map fun cs => (⟨cs⟩ : String)

/-- The element loop of the array branch (src/src/call.rs:188-193):
empty pieces are skipped, the rest go through `parse_integer_param`;
the first conversion error aborts. -/
def parseElems (convert_token : String → Except String String) :
    List String → Except String (List String)
  | [] => .ok []
  | s :: rest =>
    if s.isEmpty then parseElems convert_token rest
    else
      match parse_integer_param convert_token s with
      | .error e => .error e
      | .ok v =>
        match parseElems convert_token rest with
        | .error e => .error e
        | .ok vs => .ok (v :: vs)

/-- Rust `str::trim_start_matches('-')`. -/
def trimStartDashes (s : String) : String := trimStartChar '-' s

/-- Rust `str::starts_with(c)` for a single-char pattern. -/
def startsWithChar (c : Char) (s : String) : Bool :=
  match s.data with
  | [] => false
  | c' :: _ => c' == c

/-- The per-parameter body of the loop in `build_json_from_params`
(src/src/call.rs:173-203): scan the token list for the first token equal to
the parameter name after stripping leading dashes, take the next token as
the value, then coerce the value according to the declared type. -/
def processParam (convert_token : String → Except String String)
    (params_vec : List String) (input : Param) : Except String Json :=
  match params_vec.findIdx? (fun x => trimStartDashes x == input.name) with
  | none => .error (argNotFoundMsg input)
  | some i =>
    match params_vec[i + 1]? with
    | none => .error (argNoValueMsg input)
    | some value =>
      match input.kind with
      | .uint _ => (parse_integer_param convert_token value).map Json.str
      | .int _ => (parse_integer_param convert_token value).map Json.str
      | .array elem =>
        match elem with
        | .uint _ =>
          (parseElems convert_token (splitDelims value)).map
            (fun l => Json.arr (l.map Json.str))
        | _ => .ok (Json.str value)
      | _ => .ok (Json.str value)

/-- Insert-or-replace into a JSON object's field list
(`params_json[input.name] = value`). -/
def objInsert : List (String × Json) → String → Json → List (String × Json)
  | [], k, v => [(k, v)]
  | (k', v') :: rest, k, v =>
    if k' == k then (k, v) :: rest else (k', v') :: objInsert rest k v

/-- The input loop of `build_json_from_params`, threading the accumulated
argument object; any per-parameter error aborts the whole build, so no
partial object is ever produced. -/
def buildParams (convert_token : String → Except String String)
    (params_vec : List String) :
    List Param → List (String × Json) → Except String Json
  | [], acc => .ok (Json.obj acc)
  | p :: rest, acc =>
    match processParam convert_token params_vec p with
    | .error e => .error e
    | .ok v => buildParams convert_token params_vec rest (objInsert acc p.name v)

/-- `build_json_from_params` (src/src/call.rs:165-207).  ABI text parsing
(`Contract::load`) is external; the function is embedded from the point
where the method's declared input parameters are known. -/
def build_json_from_params (convert_token : String → Except String String)
    (inputs : List Param) (params_vec : List String) : Except String Json :=
  buildParams convert_token params_vec inputs []

/-- Opaque model of a `ton_types::Cell` (cells are produced and consumed
only by external code here). -/
structure Cell where
  id : Nat
deriving DecidableEq

/-- Rust `u32::from_str`: optional leading `+`, then at least one digit,
value below 2^32. -/
def parseU32 (s : String) : Option Nat :=
  let cs := match s.data with
    | '+' :: rest => rest
    | cs => cs
  if cs.isEmpty then none
  else if cs.all (·.isDigit) then
    let v := cs.foldl (fun acc c => acc * 10 + (c.toNat - 48)) 0
    if v < 2 ^ 32 then some v else none
  else none

/-- Oracle for the external configuration-schema machinery used by
`serialize_config_param`: `ton_block_json::parse_config` (handle returned
as an opaque `Nat`), `ConfigParams::config`, and
`ConfigParamEnum::write_to_cell` (whose result is summarized by the
reference list of the written builder). -/
structure ConfigEnv where
  parse_config : List (String × Json) → Except String Nat
  get_config : Nat → Nat → Except String (Option Nat)
  write_to_cell : Nat → Except String (List Cell)

/-- Result of an embedded Rust computation: normal return, `Err` return,
or a Rust panic (`unwrap` on `None`/empty-slice indexing). -/
inductive Outcome (α : Type) where
  | ok (v : α)
  | err (msg : String)
  | panic
deriving DecidableEq

/-- `serialize_config_param` (src/src/call.rs:57-93).  The `String`
argument of the Rust function goes through `serde_json::from_str`
(external), so the embedding starts from that parse outcome.  The returned
`Bool` records whether the external config-schema machinery
(`parse_config` and later) was invoked at all.  `references()[0]` on a
reference-free cell is a Rust panic, modelled by `Outcome.panic`. -/
def serialize_config_param (env : ConfigEnv) (parsed : Except String Json) :
    Outcome (Cell × Nat) × Bool :=
  match parsed with
  | .error e => (.err ("failed to parse \"new_param_file\": " ++ e), false)
  | .ok j =>
    match j with
    | .obj fields =>
      if fields.length ≠ 1 then
        (.err "\"new_param_file\" is not a valid json", false)
      else
        match fields with
        | [] => (.err "\"new_param_file\" is not a valid json", false)
        | (key, _) :: _ =>
          if ¬ (startsWithChar 'p' key) then
            (.err "\"new_param_file\" is not a valid json", false)
          else
            match parseU32 (trimStartChar 'p' key) with
            | none =>
              (.err "\"new_param_file\" is not a valid json: invalid digit found in string", false)
            | some key_number =>
              match env.parse_config fields with
              | .error e =>
                (.err ("failed to parse config params from \"new_param_file\": " ++ e), true)
              | .ok cp =>
                match env.get_config cp key_number with
                | .error e =>
                  (.err ("failed to parse config params from \"new_param_file\": " ++ e), true)
                | .ok none =>
                  (.err ("Not found config number " ++ toString key_number ++ " in parsed config_params"), true)
                | .ok (some param) =>
                  match env.write_to_cell param with
                  | .error e =>
                    (.err ("failed to serialize config param\": " ++ e), true)
                  | .ok [] => (.panic, true)
                  | .ok (c :: _) => (.ok (c, key_number), true)
    | _ => (.err "\"new_param_file\" is not json object", false)

/-- Validity of a parsed config-update JSON as `serialize_config_param`
checks it: an object with exactly one field whose key starts with `p` and,
stripped of every leading `p`, parses as a `u32`. -/
def isValidCfgJson : Json → Bool
  | .obj [(key, _)] =>
    startsWithChar 'p' key && (parseU32 (trimStartChar 'p' key)).isSome
  | _ => false

/-- A builder-data bit chunk: bit width paired with the value stored in
those bits. -/
abbrev Chunk := Nat × Nat

/-- Model of `ton_types::BuilderData`: the appended bit chunks in order,
and the appended cell references in order. -/
structure BuilderData where
  chunks : List Chunk
  refs : List Cell
deriving DecidableEq

def BuilderData.default : BuilderData := ⟨[], []⟩

/-- `append_raw(slice, w)`: append `w` bits holding `v mod 2^w`. -/
def BuilderData.appendRaw (b : BuilderData) (w v : Nat) : BuilderData :=
  ⟨b.chunks ++ [(w, v % 2 ^ w)], b.refs⟩

/-- `append_u32`. -/
def BuilderData.appendU32 (b : BuilderData) (v : Nat) : BuilderData :=
  b.appendRaw 32 v

/-- The 32-bit two's-complement image of an `i32` value. -/
def toU32 (i : Int) : Nat := (i % 2 ^ 32).toNat

/-- `append_i32`: append the 32-bit two's-complement bit pattern. -/
def BuilderData.appendI32 (b : BuilderData) (i : Int) : BuilderData :=
  b.appendRaw 32 (toU32 i)

/-- `append_reference_cell`. -/
def BuilderData.appendReferenceCell (b : BuilderData) (c : Cell) : BuilderData :=
  ⟨b.chunks, b.refs ++ [c]⟩

/-- `PREFIX_UPDATE_CONFIG_MESSAGE_DATA` (src/src/call.rs:55), the fixed
32-bit action tag `hex "43665021"`. -/
def updateConfigTag : Nat := 0x43665021

/-- Model of the external inbound `ton_block::Message` built by
`prepare_message_new_config_param`: no source address, a standard
destination in workchain -1, zero import fee, and the body cell. -/
structure MessageModel where
  src_none : Bool
  dest_workchain : Int
  dest_address : Nat
  import_fee : Nat
  body : BuilderData
deriving DecidableEq

/-- `prepare_message_new_config_param` (src/src/call.rs:95-133).
External cryptography is threaded in as functions: `hash` models
`finalize(0).repr_hash()` on a builder, `sign` models the ed25519
signature of a hash under a 32-byte secret key (`sign key h`, a 64-byte
value embedded as a natural number taken mod 2^512 when appended).
`now_secs` models `SystemTime::now()` in seconds; the secret-key parse
(`SecretKey::from_bytes`) fails exactly when the key is not 32 bytes. -/
def prepare_message_new_config_param
    (hash : BuilderData → Nat) (sign : List Nat → Nat → Nat) (now_secs : Nat)
    (config_param : Cell) (seqno : Nat) (key_number : Nat)
    (config_account : Nat) (private_key_of_config_account : List Nat) :
    Except String MessageModel :=
  let since_the_epoch := now_secs + 100
  let unsigned :=
    ((((BuilderData.default.appendRaw 32 updateConfigTag).appendU32
        seqno).appendU32 since_the_epoch).appendI32
        ((key_number : Int))).appendReferenceCell config_param
  if private_key_of_config_account.length = 32 then
    let msg_signature := sign private_key_of_config_account (hash unsigned)
    let signed :=
      (((((BuilderData.default.appendRaw 512 msg_signature).appendRaw 32
          updateConfigTag).appendU32 seqno).appendU32
          since_the_epoch).appendI32
          ((key_number : Int))).appendReferenceCell config_param
    .ok { src_none := true, dest_workchain := -1, dest_address := config_account,
          import_fee := 0, body := signed }
  else
    .error "failed to read private key from config-master file"

/-- Modelled from the spec: `SDK_EXECUTION_ERROR_CODE` is a constant of
`helpers.rs` (not among the provided sources) — the single recognized
numeric code identifying an on-chain execution failure.  Its concrete
value is immaterial; only equality against it is ever tested. -/
def SDK_EXECUTION_ERROR_CODE : Nat := 414

/-- Modelled from the spec: `TRACE_PATH` is a constant of `helpers.rs`
(not among the provided sources) — the fixed diagnostic-log path the
replay trace is persisted to.  The concrete path string is immaterial. -/
def TRACE_PATH : String := "trace.log"

/-- Modelled from the spec: `CONFIG_ADDR` from `replay.rs` (not among the
provided sources) — the address of the config-holder account whose state
encodes the network-wide configuration. -/
def CONFIG_ADDR : String :=
  "-1:5555555555555555555555555555555555555555555555555555555555555555"

/-- Model of a `ton_block::Account` as far as this pipeline builds one:
`Account::with_address` (external `ton_block`, modelled from the spec)
creates a zero-balance placeholder account for a given address. -/
structure AccountState where
  address : String
  balance : Nat
deriving DecidableEq

def Account.with_address (addr : String) : AccountState :=
  { address := addr, balance := 0 }

/-- The six fee components reported by `run_executor`. -/
structure Fees where
  in_msg_fwd_fee : Nat
  storage_fee : Nat
  gas_fee : Nat
  out_msgs_fwd_fee : Nat
  total_account_fees : Nat
  total_output : Nat
deriving DecidableEq

/-- Externally visible actions of the pipeline, recorded in order. -/
inductive Event where
  | print (line : String)
  | queryAccountField (addr field : String)
  | encodeMessage
  | runExecutor (boc : String) (unlimited : Option Bool) (msg : String)
  | sendMsg
  | waitForTransaction
  | processMessage
  | replayTriggered
  | executeDebug (bcConfig account msg : String) (now_ms : Nat)
  | traceWritten (path : String)
deriving DecidableEq

/-- The slice of `crate::config::Config` this pipeline reads.
`debug_fail_enabled` stands for `config.debug_fail.enabled()` and
`debug_fail_full` for `config.debug_fail == TraceLevel::Full`
(`TraceLevel` lives in `debug_executor.rs`, outside the provided
sources). -/
structure Config where
  debug_fail_enabled : Bool
  debug_fail_full : Bool
  is_json : Bool
  async_call : Bool
  local_run : Bool
  lifetime : Nat
deriving DecidableEq

/-- Oracle for every external call the pipeline makes.  Each field gives
the outcome the external world would return; opaque intermediate objects
(parsed ABI, encoded parameters, cells) are collapsed into their
observable results or carried as strings/handles. -/
structure Env where
  /-- `load_abi` (helpers): parse the ABI text. -/
  load_abi : String → Except String Unit
  /-- `now()` (helpers): wall-clock seconds, fallible in the source. -/
  now : Except String Nat
  /-- `now_ms()` (helpers): wall-clock milliseconds. -/
  now_ms : Nat
  /-- `prepare_message_params` (message.rs): addr, method, params, keys. -/
  prepare_message_params : String → String → String → Option String → Except String Unit
  /-- `encode_message`: yields the encoded message body (`msg.message`). -/
  encode_message : Except String String
  /-- `query_account_field` (helpers): address and field name. -/
  query_account_field : String → String → Except String String
  /-- `MsgAddressInt::from_str`. -/
  parse_address : String → Except String String
  /-- `Account::serialize` + `serialize_toc` + `base64::encode`
  collapsed: the boc of an account value. -/
  serialize_account : AccountState → Except String String
  /-- `run_executor`: account boc, unlimited-balance option, message. -/
  run_executor : String → Option Bool → String → Except ClientError Fees
  /-- `send_message`: yields the shard block id. -/
  send_message : Except ClientError String
  /-- `wait_for_transaction`: yields the decoded output, if any. -/
  wait_for_transaction : String → Except ClientError (Option Json)
  /-- `ton_client::processing::process_message`: decoded output or error. -/
  process_message : Except ClientError Json
  /-- Whether a `DidSend` processing event fired, and its message id. -/
  did_send : Option String
  /-- `Account::construct_from_base64` + `serialize` collapsed: the
  serialized target-account snapshot used for the replay. -/
  account_cell_of_boc : String → Except String String
  /-- `Account::construct_from_base64` for the config account (handle). -/
  construct_config_account : String → Except String Nat
  /-- `construct_blockchain_config` (replay.rs). -/
  construct_blockchain_config : Nat → Except String String
  /-- `Message::construct_from_base64`. -/
  construct_message : String → Except String String
  /-- `execute_debug` (debug.rs): bc config, account, message. -/
  execute_debug : String → String → String → Except String Unit
  /-- `chrono` rendering of the expiry timestamp. -/
  format_time : Nat → String

/-- The `run_executor` call and result reporting of `emulate_locally`
(src/src/call.rs:234-267): fee mode passes `unlimited_balance =
Some(true)` and prints the six fee components as a JSON-ish block;
non-fee mode passes no unlimited-balance flag and prints a single status
line. -/
def emulate_run (env : Env) (state msg : String) (is_fee : Bool) :
    Except String Unit × List Event :=
  let ub : Option Bool := if is_fee then some true else none
  match env.run_executor state ub msg with
  | .error e => (.error (fmtClientError e), [Event.runExecutor state ub msg])
  | .ok fees =>
    let prints :=
      if is_fee then
        [Event.print "\x7b",
         Event.print ("  \"in_msg_fwd_fee\": \"" ++ toString fees.in_msg_fwd_fee ++ "\","),
         Event.print ("  \"storage_fee\": \"" ++ toString fees.storage_fee ++ "\","),
         Event.print ("  \"gas_fee\": \"" ++ toString fees.gas_fee ++ "\","),
         Event.print ("  \"out_msgs_fwd_fee\": \"" ++ toString fees.out_msgs_fwd_fee ++ "\","),
         Event.print ("  \"total_account_fees\": \"" ++ toString fees.total_account_fees ++ "\","),
         Event.print ("  \"total_output\": \"" ++ toString fees.total_output ++ "\""),
         Event.print "\x7d"]
      else [Event.print "Local run succeeded. Executing onchain."]
    (.ok (), Event.runExecutor state ub msg :: prints)

/-- `emulate_locally` (src/src/call.rs:209-268): fetch the target
account's boc; if that fails, fee mode synthesizes a zero-balance
placeholder account for the (parsed) address while non-fee mode returns
the fetch error unchanged; then run the executor locally. -/
def emulate_locally (env : Env) (addr msg : String) (is_fee : Bool) :
    Except String Unit × List Event :=
  match env.query_account_field addr "boc" with
  | .error e =>
    if is_fee then
      match env.parse_address addr with
      | .error pe =>
        (.error ("couldn't decode address: " ++ pe),
         [Event.queryAccountField addr "boc"])
      | .ok a =>
        match env.serialize_account (Account.with_address a) with
        | .error se => (.error se, [Event.queryAccountField addr "boc"])
        | .ok state =>
          let r := emulate_run env state msg is_fee
          (r.1, Event.queryAccountField addr "boc" :: r.2)
    else (.error e, [Event.queryAccountField addr "boc"])
  | .ok state =>
    let r := emulate_run env state msg is_fee
    (r.1, Event.queryAccountField addr "boc" :: r.2)

/-- `send_message_and_wait` (src/src/call.rs:270-312): print a progress
line (interactive mode), send; in synchronous mode wait for the
transaction and return its decoded output (or an empty object), in
asynchronous mode return an empty object immediately. -/
def send_message_and_wait (env : Env) (config : Config) :
    Except String Json × List Event :=
  let pr : List Event :=
    if ¬ config.is_json then [Event.print "Processing... "] else []
  match env.send_message with
  | .error e => (.error (fmtClientError e), pr ++ [Event.sendMsg])
  | .ok shard =>
    if ¬ config.async_call then
      match env.wait_for_transaction shard with
      | .error e =>
        (.error (fmtClientError e), pr ++ [Event.sendMsg, Event.waitForTransaction])
      | .ok out =>
        (.ok (out.getD (Json.obj [])), pr ++ [Event.sendMsg, Event.waitForTransaction])
    else (.ok (Json.obj []), pr ++ [Event.sendMsg])

/-- Result of the message-encoding block of `call_contract_with_client`
(src/src/call.rs:400-424): either an early `return` with a final outcome,
or fall-through with the optional encoded message. -/
inductive Phase1Res where
  | ret (out : Outcome Json)
  | cont (message : Option String)

/-- The `needs_encoded_msg` computation and the `let message = ...` block
of `call_contract_with_client` (src/src/call.rs:400-424): encode when any
of fee mode, async mode, local run or diagnostic mode demands it; run the
local emulation when requested (returning `Ok(Null)` in fee mode); branch
off to `send_message_and_wait` in async mode. -/
def encode_phase (env : Env) (config : Config) (addr : String)
    (is_fee : Bool) : Phase1Res × List Event :=
  let needs_encoded_msg :=
    is_fee || config.async_call || config.local_run || config.debug_fail_enabled
  if needs_encoded_msg then
    match env.encode_message with
    | .error e =>
      (.ret (.err ("failed to create inbound message: " ++ e)), [Event.encodeMessage])
    | .ok m =>
      let emu :=
        if config.local_run || is_fee then emulate_locally env addr m is_fee
        else (.ok (), [])
      match emu.1 with
      | .error e => (.ret (.err e), Event.encodeMessage :: emu.2)
      | .ok _ =>
        if is_fee then (.ret (.ok Json.null), Event.encodeMessage :: emu.2)
        else if config.async_call then
          let s := send_message_and_wait env config
          (.ret (match s.1 with
                 | .error e => .err e
                 | .ok v => .ok v),
           Event.encodeMessage :: (emu.2 ++ s.2))
        else (.cont (some m), Event.encodeMessage :: emu.2)
  else (.cont none, [])

/-- The pre-submission snapshot gathering of `call_contract_with_client`
(src/src/call.rs:432-451): fetch the target account's boc and rebuild its
serialized state, fetch the config account's boc and rebuild the
blockchain configuration.  Yields `(bc_config, account)`. -/
def build_dump (env : Env) (addr : String) :
    Except String (String × String) × List Event :=
  match env.query_account_field addr "boc" with
  | .error e => (.error e, [Event.queryAccountField addr "boc"])
  | .ok acc_boc =>
    match env.account_cell_of_boc acc_boc with
    | .error e => (.error e, [Event.queryAccountField addr "boc"])
    | .ok account =>
      match env.query_account_field CONFIG_ADDR "boc" with
      | .error e =>
        (.error e,
         [Event.queryAccountField addr "boc",
          Event.queryAccountField CONFIG_ADDR "boc"])
      | .ok cfg_boc =>
        match env.construct_config_account cfg_boc with
        | .error e =>
          (.error ("Failed to construct config account: " ++ e),
           [Event.queryAccountField addr "boc",
            Event.queryAccountField CONFIG_ADDR "boc"])
        | .ok cfg_acc =>
          match env.construct_blockchain_config cfg_acc with
          | .error e =>
            (.error e,
             [Event.queryAccountField addr "boc",
              Event.queryAccountField CONFIG_ADDR "boc"])
          | .ok bc_config =>
            (.ok (bc_config, account),
             [Event.queryAccountField addr "boc",
              Event.queryAccountField CONFIG_ADDR "boc"])

/-- The `MessageId` line printed by the interactive processing callback
(src/src/call.rs:319-323) when a `DidSend` event fires. -/
def msgIdPrints (env : Env) (config : Config) : List Event :=
  if ¬ config.is_json then
    match env.did_send with
    | some id => [Event.print ("MessageId: " ++ id)]
    | none => []
  else []

/-- The error lines printed on entry to the replay branch
(src/src/call.rs:462-467). -/
def replayPrints (config : Config) (e : ClientError) : List Event :=
  if config.is_json then [Event.print (fmtClientError e)]
  else [Event.print ("Error: " ++ fmtClientError e),
        Event.print "Execution failed. Starting debug..."]

/-- The lines printed after a successful replay
(src/src/call.rs:473-476). -/
def debugDonePrints (config : Config) : List Event :=
  if ¬ config.is_json then
    [Event.print "Debug finished.", Event.print ("Log saved to " ++ TRACE_PATH)]
  else []

/-- The expiry-time line printed in interactive mode
(src/src/call.rs:426-430). -/
def expirePrints (env : Env) (config : Config) (expire_at : Nat) : List Event :=
  if ¬ config.is_json then
    [Event.print ("Expire at: " ++ env.format_time expire_at)]
  else []

/-- Modelled from the spec: `execute_debug` (debug.rs, not among the
provided sources) re-executes the message under the tracing executor and,
on success, persists the trace through the logger to the fixed
diagnostic-log path; it can itself fail. -/
def execute_debug_step (env : Env) (bc account msg : String) (nms : Nat) :
    Except String Unit × List Event :=
  match env.execute_debug bc account msg with
  | .error e => (.error e, [Event.executeDebug bc account msg nms])
  | .ok _ =>
    (.ok (),
     [Event.executeDebug bc account msg nms, Event.traceWritten TRACE_PATH])

/-- The submission and replay tail of `call_contract_with_client`
(src/src/call.rs:458-479): run `process_message`; when diagnostic mode is
on and the error code is the recognized execution-error code, print the
error, consume the pre-fetched snapshot (`dump.unwrap()` — a panic if it
was never built), rebuild the message, run the tracing replay and return
`Err("")`; any other error is returned as a formatted terminal failure. -/
def run_and_replay (env : Env) (config : Config) (trPre : List Event)
    (dump : Option (String × String × String × Nat)) :
    Outcome Json × List Event :=
  let trP := trPre ++ Event.processMessage :: msgIdPrints env config
  match env.process_message with
  | .ok v => (.ok v, trP)
  | .error e =>
    if config.debug_fail_enabled && e.code == SDK_EXECUTION_ERROR_CODE then
      match dump with
      | none => (.panic, trP ++ Event.replayTriggered :: replayPrints config e)
      | some (bc, account, m, nms) =>
        match env.construct_message m with
        | .error ce =>
          (.err ("failed to construct message: " ++ ce),
           trP ++ Event.replayTriggered :: replayPrints config e)
        | .ok mc =>
          let d := execute_debug_step env bc account mc nms
          match d.1 with
          | .error de =>
            (.err de, trP ++ Event.replayTriggered :: (replayPrints config e ++ d.2))
          | .ok _ =>
            (.err "", trP ++ Event.replayTriggered ::
              (replayPrints config e ++ d.2 ++ debugDonePrints config))
    else (.err (fmtClientError e), trP)

/-- The tail of `call_contract_with_client` after the encoding block
(src/src/call.rs:426-479): print the expiry time (interactive mode),
gather the diagnostic snapshot when diagnostic mode is on
(`message.unwrap()` — a panic if no message was encoded), then submit and
possibly replay. -/
def after_encode (env : Env) (config : Config) (addr : String)
    (expire_at : Nat) (message : Option String) : Outcome Json × List Event :=
  let pr0 := expirePrints env config expire_at
  if config.debug_fail_enabled then
    match build_dump env addr with
    | (.error e, tr) => (.err e, pr0 ++ tr)
    | (.ok (bc, account), tr) =>
      match message with
      | none => (.panic, pr0 ++ tr)
      | some m =>
        run_and_replay env config (pr0 ++ tr) (some (bc, account, m, env.now_ms))
  else
    run_and_replay env config pr0 none

/-- `call_contract_with_client` (src/src/call.rs:371-480): load the ABI,
build the expiring header, prepare the message parameters, run the
encoding block (with its early returns), then the submission/replay
tail. -/
def call_contract_with_client (env : Env) (config : Config) (addr : String)
    (abi_string method params : String) (keys : Option String)
    (is_fee : Bool) : Outcome Json × List Event :=
  match env.load_abi abi_string with
  | .error e => (.err e, [])
  | .ok _ =>
    match env.now with
    | .error e => (.err e, [])
    | .ok n =>
      let expire_at := config.lifetime + n
      match env.prepare_message_params addr method params keys with
      | .error e => (.err e, [])
      | .ok _ =>
        match encode_phase env config addr is_fee with
        | (.ret o, tr) => (o, tr)
        | (.cont message, tr) =>
          let r := after_encode env config addr expire_at message
          (r.1, tr ++ r.2)

/-! ### Concrete instances used by witnesses and counterexamples -/

/-- A concrete stand-in for the external token convertor. -/
def convStub : String → Except String String := fun s => .ok ("CONV:" ++ s)

/-- A concrete config-schema oracle that accepts everything it is given. -/
def cfgEnv0 : ConfigEnv where
  parse_config := fun _ => .ok 0
  get_config := fun _ _ => .ok (some 0)
  write_to_cell := fun _ => .ok [⟨7⟩]

/-- Concrete fee components. -/
def fees0 : Fees := ⟨1, 2, 3, 4, 5, 6⟩

/-- A fully cooperative environment: every external call succeeds. -/
def envBase : Env where
  load_abi := fun _ => .ok ()
  now := .ok 1000
  now_ms := 1000000
  prepare_message_params := fun _ _ _ _ => .ok ()
  encode_message := .ok "MSG"
  query_account_field := fun _ _ => .ok "BOC"
  parse_address := fun a => .ok a
  serialize_account := fun _ => .ok "DUMMYBOC"
  run_executor := fun _ _ _ => .ok fees0
  send_message := .ok "SHARD"
  wait_for_transaction := fun _ => .ok (some (Json.obj [("value", Json.num 42)]))
  process_message := .ok (Json.obj [])
  did_send := none
  account_cell_of_boc := fun _ => .ok "ACC"
  construct_config_account := fun _ => .ok 7
  construct_blockchain_config := fun _ => .ok "BCCFG"
  construct_message := fun s => .ok ("MSGCELL:" ++ s)
  execute_debug := fun _ _ _ => .ok ()
  format_time := fun n => toString n

/-- `envBase` but `process_message` fails with the recognized on-chain
execution-error code. -/
def envExecFail : Env :=
  { envBase with
    process_message := .error ⟨SDK_EXECUTION_ERROR_CODE, "Contract execution was terminated with error"⟩ }

/-- `envBase` but `process_message` fails with a transport-style code
distinct from the recognized execution-error code. -/
def envNetFail : Env :=
  { envBase with process_message := .error ⟨507, "Message expired"⟩ }

/-- `envBase` but the target account does not exist on-chain. -/
def envNoAcc : Env :=
  { envBase with query_account_field := fun _ _ => .error "failed to query account boc: no data" }

/-- Baseline configuration: interactive synchronous mode, no diagnostics. -/
def cfgPlain : Config where
  debug_fail_enabled := false
  debug_fail_full := false
  is_json := false
  async_call := false
  local_run := false
  lifetime := 60

/-- Diagnostic (debug-fail) mode enabled. -/
def cfgDebug : Config := { cfgPlain with debug_fail_enabled := true }

/-- A concrete cell hash function. -/
def hash0 : BuilderData → Nat := fun b => b.chunks.length + b.refs.length

/-- A concrete signing function. -/
def sign0 : List Nat → Nat → Nat := fun k h => k.length + h

/-- A concrete 32-byte key. -/
def key0 : List Nat := List.replicate 32 0

/-- Events an execution can emit before the message is submitted:
everything except submission processing and the replay machinery. -/
def isPreEvent : Event → Bool
  | .print _ => true
  | .queryAccountField _ _ => true
  | .encodeMessage => true
  | .runExecutor _ _ _ => true
  | .sendMsg => true
  | .waitForTransaction => true
  | _ => false

/-! ### C8: integer-parameter conversion -/

/-- C8 counterexample: the claim says a literal not ending in `T` is
"passed through unchanged", but `parse_integer_param` first trims
surrounding double quotes, so the literal `"42"` (with quote characters)
comes back changed, as `42`. -/
theorem c8_counterexample :
    parse_integer_param convStub "\"42\"" = .ok "42" ∧
    ("42" : String) ≠ "\"42\"" :=
  ⟨rfl, by decide⟩

/-- C8 (amended): the value is first trimmed of surrounding double-quote
characters; if the trimmed value then ends with `T`, the external
convertor is applied to the trimmed value with every trailing `T`
removed; otherwise the trimmed value is passed through unchanged. -/
theorem c8_integer_param_conversion
    (convert_token : String → Except String String) (value : String) :
    (endsWithChar 'T' (trimBothChar '"' value) = true →
      parse_integer_param convert_token value =
        convert_token (trimEndChar 'T' (trimBothChar '"' value))) ∧
    (endsWithChar 'T' (trimBothChar '"' value) = false →
      parse_integer_param convert_token value = .ok (trimBothChar '"' value)) := by
  constructor <;> intro h <;> simp [parse_integer_param, h]

theorem c8_witness :
    endsWithChar 'T' (trimBothChar '"' "2T") = true ∧
    parse_integer_param convStub "2T" = convStub "2" :=
  ⟨by decide, (c8_integer_param_conversion convStub "2T").1 (by decide)⟩

/-! ### C9: non-fee local emulation output -/

/-- C9 counterexample: a successful local emulation in non-fee mode is
claimed to produce no output, but the code prints a status line. -/
theorem c9_counterexample :
    emulate_locally envBase "0:ab" "MSG" false =
      (.ok (),
       [Event.queryAccountField "0:ab" "boc",
        Event.runExecutor "BOC" none "MSG",
        Event.print "Local run succeeded. Executing onchain."]) ∧
    Event.print "Local run succeeded. Executing onchain." ∈
      (emulate_locally envBase "0:ab" "MSG" false).2 :=
  ⟨rfl, by decide⟩

/-- C9 (amended): on a successful local emulation in non-fee mode,
`emulate_locally` prints exactly one status line,
`Local run succeeded. Executing onchain.` (unconditionally — a source
TODO notes the missing JSON-mode gate), emits no fee report, and returns
success. -/
theorem c9_nonfee_status_line
    (env : Env) (addr msg boc : String) (fees : Fees)
    (hq : env.query_account_field addr "boc" = .ok boc)
    (hr : env.run_executor boc none msg = .ok fees) :
    emulate_locally env addr msg false =
      (.ok (),
       [Event.queryAccountField addr "boc",
        Event.runExecutor boc none msg,
        Event.print "Local run succeeded. Executing onchain."]) := by
  simp [emulate_locally, emulate_run, hq, hr]

theorem c9_witness :
    envBase.query_account_field "0:cd" "boc" = .ok "BOC" ∧
    envBase.run_executor "BOC" none "M" = .ok fees0 ∧
    emulate_locally envBase "0:cd" "M" false =
      (.ok (),
       [Event.queryAccountField "0:cd" "boc",
        Event.runExecutor "BOC" none "M",
        Event.print "Local run succeeded. Executing onchain."]) :=
  ⟨rfl, rfl, c9_nonfee_status_line envBase "0:cd" "M" "BOC" fees0 rfl rfl⟩

/-! ### C7: missing-parameter reporting -/

/-- C7 counterexample: the token list `["--a", "b", "x"]` has no `--b`
token, yet `build_json_from_params` succeeds: the matcher strips leading
dashes from *every* token, so the bare value token `b` counts as the name
token of parameter `b`. -/
theorem c7_counterexample :
    "--b" ∉ ["--a", "b", "x"] ∧
    build_json_from_params convStub
        [⟨"a", .other "cell"⟩, ⟨"b", .other "cell"⟩] ["--a", "b", "x"] =
      .ok (Json.obj [("a", Json.str "b"), ("b", Json.str "x")]) :=
  ⟨by decide, rfl⟩

/-- Processing a block of parameters that all succeed only grows the
accumulated object. -/
theorem buildParams_append_ok
    (convert_token : String → Except String String)
    (params_vec : List String) (pre rest : List Param)
    (hpre : ∀ q ∈ pre, ∃ v, processParam convert_token params_vec q = .ok v) :
    ∀ acc, ∃ acc',
      buildParams convert_token params_vec (pre ++ rest) acc =
        buildParams convert_token params_vec rest acc' := by
  induction pre with
  | nil => intro acc; exact ⟨acc, rfl⟩
  | cons q pre ih =>
    intro acc
    obtain ⟨v, hv⟩ := hpre q (List.mem_cons_self q pre)
    obtain ⟨acc', h⟩ :=
      ih (fun r hr => hpre r (List.mem_cons_of_mem q hr)) (objInsert acc q.name v)
    exact ⟨acc', by simpa [buildParams, hv] using h⟩

/-- C7 (amended): parameters are processed in declaration order, and a
token *matches* a parameter when it equals the parameter name after
stripping every leading `-` (so a bare value token can match).  If every
parameter declared before `p` processes successfully and `p` has no
matching token — or its first matching token is the last token — then
`build_json_from_params` fails with an error naming `p` and its declared
type, and no partial argument object is returned. -/
theorem c7_missing_param_error
    (convert_token : String → Except String String)
    (params_vec : List String) (pre : List Param) (p : Param) (rest : List Param)
    (hpre : ∀ q ∈ pre, ∃ v, processParam convert_token params_vec q = .ok v) :
    (params_vec.findIdx? (fun x => trimStartDashes x == p.name) = none →
      build_json_from_params convert_token (pre ++ p :: rest) params_vec =
        .error (argNotFoundMsg p)) ∧
    (∀ i, params_vec.findIdx? (fun x => trimStartDashes x == p.name) = some i →
      params_vec[i + 1]? = none →
      build_json_from_params convert_token (pre ++ p :: rest) params_vec =
        .error (argNoValueMsg p)) := by
  obtain ⟨acc', h⟩ :=
    buildParams_append_ok convert_token params_vec pre (p :: rest) hpre []
  constructor
  · intro hnone
    simp [build_json_from_params, h, buildParams, processParam, hnone]
  · intro i hsome hval
    simp [build_json_from_params, h, buildParams, processParam, hsome, hval]

theorem c7_witness :
    (∀ q ∈ [(⟨"x", .other "cell"⟩ : Param)],
      ∃ v, processParam convStub ["--x", "1"] q = .ok v) ∧
    (["--x", "1"].findIdx? (fun x => trimStartDashes x == "y") = none) ∧
    build_json_from_params convStub
        ([⟨"x", .other "cell"⟩] ++ (⟨"y", .uint 8⟩ : Param) :: [])
        ["--x", "1"] =
      .error (argNotFoundMsg ⟨"y", .uint 8⟩) := by
  have hpre : ∀ q ∈ [(⟨"x", .other "cell"⟩ : Param)],
      ∃ v, processParam convStub ["--x", "1"] q = .ok v := by
    intro q hq
    simp only [List.mem_singleton] at hq
    subst hq
    exact ⟨Json.str "1", rfl⟩
  exact ⟨hpre, by decide,
    (c7_missing_param_error convStub ["--x", "1"] [⟨"x", .other "cell"⟩]
      ⟨"y", .uint 8⟩ [] hpre).1 (by decide)⟩

/-! ### C4: config-update JSON validation -/

/-- C4 counterexample: the key `pp3` starts with `p` and its remainder
after the `p` prefix, `p3`, does not parse as a number, so the claim
demands a validation error; but the code strips *every* leading `p`,
accepts the key as parameter 3, and proceeds into the config-parsing
machinery (and here all the way to success). -/
theorem c4_counterexample :
    startsWithChar 'p' "pp3" = true ∧
    parseU32 ⟨"pp3".data.drop 1⟩ = none ∧
    serialize_config_param cfgEnv0 (.ok (Json.obj [("pp3", Json.null)])) =
      (.ok (⟨7⟩, 3), true) :=
  ⟨by decide, by decide, by decide⟩

/-- C4 (amended): for every config-update JSON input that is not an
object with exactly one top-level key, or whose single key does not start
with `p`, or whose key stripped of *all* leading `p` characters does not
parse as a `u32` parameter number, `serialize_config_param` returns a
validation error without invoking the config-parsing machinery (and
hence before any cryptographic work). -/
theorem c4_validation_rejects
    (env : ConfigEnv) (parsed : Except String Json)
    (hinv : ∀ j, parsed = .ok j → isValidCfgJson j = false) :
    ∃ s, serialize_config_param env parsed = (.err s, false) := by
  cases parsed with
  | error e => exact ⟨_, rfl⟩
  | ok j =>
    have h := hinv j rfl
    cases j with
    | null => exact ⟨_, rfl⟩
    | bool b => exact ⟨_, rfl⟩
    | num n => exact ⟨_, rfl⟩
    | str s => exact ⟨_, rfl⟩
    | arr l => exact ⟨_, rfl⟩
    | obj fields =>
      match fields, h with
      | [], _ => exact ⟨_, rfl⟩
      | (k, v) :: f :: fs, _ =>
        exact ⟨"\"new_param_file\" is not a valid json",
          by simp [serialize_config_param]⟩
      | [(k, v)], h =>
        by_cases hk : startsWithChar 'p' k = true
        · have hp : parseU32 (trimStartChar 'p' k) = none := by
            simpa [isValidCfgJson, hk] using h
          exact ⟨"\"new_param_file\" is not a valid json: invalid digit found in string",
            by simp [serialize_config_param, hk, hp]⟩
        · exact ⟨"\"new_param_file\" is not a valid json",
            by simp [serialize_config_param, hk]⟩

theorem c4_witness :
    (∀ j, (Except.ok (Json.obj [("q1", Json.null)]) : Except String Json) = .ok j →
      isValidCfgJson j = false) ∧
    ∃ s, serialize_config_param cfgEnv0 (.ok (Json.obj [("q1", Json.null)])) =
      (.err s, false) :=
  ⟨fun j hj => by cases hj; decide,
   c4_validation_rejects cfgEnv0 (.ok (Json.obj [("q1", Json.null)]))
     (fun j hj => by cases hj; decide)⟩

/-! ### C3: signed config-update message layout -/

/-- C3: the signed wire body is exactly a 512-bit signature, then the
32-bit action tag, 32-bit sequence number, 32-bit timestamp (current time
plus 100 seconds) and 32-bit signed parameter number, then the parameter
cell reference, in that order; and the signature is computed over the
hash of the unsigned cell holding exactly those four scalar fields and
the same reference, without the signature. -/
theorem c3_signed_body_layout
    (hash : BuilderData → Nat) (sign : List Nat → Nat → Nat) (now_secs : Nat)
    (config_param : Cell) (seqno key_number config_account : Nat)
    (key : List Nat)
    (hkey : key.length = 32) (hs : seqno < 2 ^ 32) (hk : key_number < 2 ^ 32)
    (ht : now_secs + 100 < 2 ^ 32) :
    prepare_message_new_config_param hash sign now_secs config_param seqno
        key_number config_account key =
      .ok { src_none := true, dest_workchain := -1,
            dest_address := config_account, import_fee := 0,
            body :=
              { chunks :=
                  [(512, sign key (hash
                      { chunks := [(32, updateConfigTag), (32, seqno),
                                   (32, now_secs + 100), (32, key_number)],
                        refs := [config_param] }) % 2 ^ 512),
                   (32, updateConfigTag), (32, seqno),
                   (32, now_secs + 100), (32, key_number)],
                refs := [config_param] } } := by
  have hcast : toU32 ((key_number : Nat) : Int) = key_number := by
    have h32 : ((key_number : Nat) : Int) < 2 ^ 32 := by exact_mod_cast hk
    unfold toU32
    rw [Int.emod_eq_of_lt (Int.natCast_nonneg key_number) h32]
    simp
  simp only [prepare_message_new_config_param, hkey, if_true,
    BuilderData.appendRaw, BuilderData.appendU32, BuilderData.appendI32,
    BuilderData.appendReferenceCell, BuilderData.default, hcast,
    List.nil_append, List.cons_append, List.append_nil]
  rw [Nat.mod_eq_of_lt hs, Nat.mod_eq_of_lt hk, Nat.mod_eq_of_lt ht,
    Nat.mod_eq_of_lt (show updateConfigTag < 2 ^ 32 by norm_num [updateConfigTag])]

theorem c3_witness :
    key0.length = 32 ∧ (2 : Nat) < 2 ^ 32 ∧ (3 : Nat) < 2 ^ 32 ∧
    (5 : Nat) + 100 < 2 ^ 32 ∧
    prepare_message_new_config_param hash0 sign0 5 ⟨11⟩ 2 3 4 key0 =
      .ok { src_none := true, dest_workchain := -1, dest_address := 4,
            import_fee := 0,
            body :=
              { chunks :=
                  [(512, sign0 key0 (hash0
                      { chunks := [(32, updateConfigTag), (32, 2),
                                   (32, 5 + 100), (32, 3)],
                        refs := [⟨11⟩] }) % 2 ^ 512),
                   (32, updateConfigTag), (32, 2), (32, 5 + 100), (32, 3)],
                refs := [⟨11⟩] } } :=
  ⟨by decide, by decide, by decide, by decide,
   c3_signed_body_layout hash0 sign0 5 ⟨11⟩ 2 3 4 key0 (by decide) (by decide)
     (by decide) (by decide)⟩

/-! ### Pipeline helper lemmas -/

/-- Every event of the local-emulation run step is a pre-submission
event. -/
theorem emulate_run_pre (env : Env) (state msg : String) (is_fee : Bool) :
    ∀ e ∈ (emulate_run env state msg is_fee).2, isPreEvent e = true := by
  intro e he
  cases is_fee
  · rcases h : env.run_executor state none msg with er | fees <;>
      simp [emulate_run, h] at he
    · subst he; rfl
    · rcases he with rfl | rfl <;> rfl
  · rcases h : env.run_executor state (some true) msg with er | fees <;>
      simp [emulate_run, h] at he
    · subst he; rfl
    · rcases he with rfl | rfl | rfl | rfl | rfl | rfl | rfl | rfl | rfl <;> rfl

/-- Every event of `emulate_locally` is a pre-submission event. -/
theorem emulate_locally_pre (env : Env) (addr msg : String) (is_fee : Bool) :
    ∀ e ∈ (emulate_locally env addr msg is_fee).2, isPreEvent e = true := by
  intro e he
  rcases hq : env.query_account_field addr "boc" with er | state
  · cases is_fee
    · simp [emulate_locally, hq] at he
      subst he; rfl
    · rcases hp : env.parse_address addr with pe | a
      · simp [emulate_locally, hq, hp] at he
        subst he; rfl
      · rcases hs : env.serialize_account (Account.with_address a) with se | st
        · simp [emulate_locally, hq, hp, hs] at he
          subst he; rfl
        · simp [emulate_locally, hq, hp, hs] at he
          rcases he with rfl | he
          · rfl
          · exact emulate_run_pre env st msg true e he
  · simp [emulate_locally, hq] at he
    rcases he with rfl | he
    · rfl
    · exact emulate_run_pre env state msg is_fee e he

/-- Every event of `send_message_and_wait` is a pre-submission event. -/
theorem send_message_and_wait_pre (env : Env) (config : Config) :
    ∀ e ∈ (send_message_and_wait env config).2, isPreEvent e = true := by
  intro e he
  rcases hs : env.send_message with er | shard
  · by_cases hj : config.is_json = true <;>
      simp [send_message_and_wait, hs, hj] at he
    · subst he; rfl
    · rcases he with rfl | rfl <;> rfl
  · by_cases ha : config.async_call = true
    · by_cases hj : config.is_json = true <;>
        simp [send_message_and_wait, hs, ha, hj] at he
      · subst he; rfl
      · rcases he with rfl | rfl <;> rfl
    · rcases hw : env.wait_for_transaction shard with we | out <;>
        by_cases hj : config.is_json = true <;>
        simp [send_message_and_wait, hs, ha, hj, hw] at he <;>
        first
          | (subst he; rfl)
          | (rcases he with rfl | rfl <;> rfl)
          | (rcases he with rfl | rfl | rfl <;> rfl)

/-- Every event of the encoding phase is a pre-submission event: in
particular no submission processing and no replay happens there. -/
theorem encode_phase_pre (env : Env) (config : Config) (addr : String)
    (is_fee : Bool) :
    ∀ e ∈ (encode_phase env config addr is_fee).2, isPreEvent e = true := by
  simp only [encode_phase]
  split
  · split
    · simp [isPreEvent]
    · split
      · intro e he
        rcases List.mem_cons.mp he with rfl | he
        · rfl
        · revert he
          split
          · exact fun he => emulate_locally_pre env addr _ _ e he
          · simp
      · split
        · intro e he
          rcases List.mem_cons.mp he with rfl | he
          · rfl
          · revert he
            split
            · exact fun he => emulate_locally_pre env addr _ _ e he
            · simp
        · split
          · intro e he
            rcases List.mem_cons.mp he with rfl | he
            · rfl
            · rcases List.mem_append.mp he with he | he
              · revert he
                split
                · exact fun he => emulate_locally_pre env addr _ _ e he
                · simp
              · exact send_message_and_wait_pre env config e he
          · intro e he
            rcases List.mem_cons.mp he with rfl | he
            · rfl
            · revert he
              split
              · exact fun he => emulate_locally_pre env addr _ _ e he
              · simp
  · simp

/-- In diagnostic mode the encoding phase never falls through without an
encoded message. -/
theorem encode_phase_cont_some (env : Env) (config : Config) (addr : String)
    (is_fee : Bool) (hdbg : config.debug_fail_enabled = true) :
    ∀ msg tr, encode_phase env config addr is_fee = (.cont msg, tr) →
      msg.isSome = true := by
  intro msg tr h
  simp only [encode_phase] at h
  split at h
  · split at h
    · simp at h
    · split at h
      · simp at h
      · split at h
        · simp at h
        · split at h
          · simp at h
          · simp only [Prod.mk.injEq, Phase1Res.cont.injEq] at h
            obtain ⟨h1, -⟩ := h
            subst h1
            rfl
  · rename_i hc
    rw [hdbg] at hc
    simp at hc

/-- An early return of the encoding phase is never a panic. -/
theorem encode_phase_ret_ne_panic (env : Env) (config : Config) (addr : String)
    (is_fee : Bool) (o : Outcome Json) (tr : List Event)
    (h : encode_phase env config addr is_fee = (.ret o, tr)) :
    o ≠ Outcome.panic := by
  simp only [encode_phase] at h
  split at h
  · split at h
    · simp only [Prod.mk.injEq, Phase1Res.ret.injEq] at h
      obtain ⟨h1, -⟩ := h
      subst h1
      simp
    · split at h
      · simp only [Prod.mk.injEq, Phase1Res.ret.injEq] at h
        obtain ⟨h1, -⟩ := h
        subst h1
        simp
      · split at h
        · simp only [Prod.mk.injEq, Phase1Res.ret.injEq] at h
          obtain ⟨h1, -⟩ := h
          subst h1
          simp
        · split at h
          · simp only [Prod.mk.injEq, Phase1Res.ret.injEq] at h
            obtain ⟨h1, -⟩ := h
            subst h1
            split <;> simp
          · simp at h
  · simp at h

/-- `run_and_replay` never panics when the snapshot is available whenever
diagnostic mode is on. -/
theorem run_and_replay_ne_panic (env : Env) (config : Config)
    (trPre : List Event) (dump : Option (String × String × String × Nat))
    (h : config.debug_fail_enabled = true → dump.isSome = true) :
    (run_and_replay env config trPre dump).1 ≠ Outcome.panic := by
  rcases hp : env.process_message with e | v
  · by_cases hc : (config.debug_fail_enabled &&
        (e.code == SDK_EXECUTION_ERROR_CODE)) = true
    · have hdbg : config.debug_fail_enabled = true :=
        ((Bool.and_eq_true _ _).mp hc).1
      rcases dump with _ | ⟨bc, account, m, nms⟩
      · exact absurd (h hdbg) (by simp)
      · rcases hcm : env.construct_message m with ce | mc
        · simp [run_and_replay, hp, hc, hcm]
        · rcases hd : (execute_debug_step env bc account mc nms).1 with de | u <;>
            simp [run_and_replay, hp, hc, hcm, hd]
    · simp [run_and_replay, hp, hc]
  · simp [run_and_replay, hp]

/-- `after_encode` never panics when diagnostic mode guarantees an
encoded message. -/
theorem after_encode_ne_panic (env : Env) (config : Config) (addr : String)
    (expire_at : Nat) (message : Option String)
    (hmsg : config.debug_fail_enabled = true → message.isSome = true) :
    (after_encode env config addr expire_at message).1 ≠ Outcome.panic := by
  by_cases hdbg : config.debug_fail_enabled = true
  · rcases hbd : build_dump env addr with ⟨r, tr⟩
    rcases r with er | ⟨bc, account⟩
    · simp [after_encode, hdbg, hbd]
    · rcases message with _ | m
      · exact absurd (hmsg hdbg) (by simp)
      · simp only [after_encode, hdbg, hbd, if_true]
        exact run_and_replay_ne_panic env config _ _ (fun _ => rfl)
  · simp only [after_encode, hdbg, if_false, Bool.false_eq_true]
    · exact run_and_replay_ne_panic env config _ none (fun hc => absurd hc hdbg)

/-! ### C10: the diagnostic-mode unwraps never panic -/

/-- C10: in every configuration and environment, the pipeline never hits
a panic — in particular `message.unwrap()` in the snapshot construction
and `dump.unwrap()` in the replay branch are always backed by `Some`:
diagnostic mode forces a message to be encoded
(`debug_fail.enabled()` implies `needs_encoded_msg`), and the replay
branch is only reachable in diagnostic mode, with the snapshot built. -/
theorem c10_no_panic (env : Env) (config : Config)
    (addr abi_string method params : String) (keys : Option String)
    (is_fee : Bool) :
    (call_contract_with_client env config addr abi_string method params keys
        is_fee).1 ≠ Outcome.panic := by
  unfold call_contract_with_client
  split
  · simp
  · split
    · simp
    · split
      · simp
      · split
        · rename_i o tr h
          simpa using encode_phase_ret_ne_panic env config addr is_fee o tr h
        · rename_i message tr h
          simpa using after_encode_ne_panic env config addr _ message
            (fun hdbg => encode_phase_cont_some env config addr is_fee hdbg
              message tr h)

/-! ### Trace characterization lemmas -/

/-- `msgIdPrints` contains only console prints. -/
theorem mem_msgIdPrints (env : Env) (config : Config) (e : Event)
    (h : e ∈ msgIdPrints env config) : ∃ s, e = Event.print s := by
  unfold msgIdPrints at h
  split at h
  · split at h <;> simp at h
    exact ⟨_, h⟩
  · simp at h

/-- `replayPrints` contains only console prints. -/
theorem mem_replayPrints (config : Config) (err : ClientError) (e : Event)
    (h : e ∈ replayPrints config err) : ∃ s, e = Event.print s := by
  unfold replayPrints at h
  split at h <;> simp at h
  · exact ⟨_, h⟩
  · rcases h with h | h <;> exact ⟨_, h⟩

/-- `debugDonePrints` contains only console prints. -/
theorem mem_debugDonePrints (config : Config) (e : Event)
    (h : e ∈ debugDonePrints config) : ∃ s, e = Event.print s := by
  unfold debugDonePrints at h
  split at h <;> simp at h
  rcases h with h | h <;> exact ⟨_, h⟩

/-- `expirePrints` contains only console prints. -/
theorem mem_expirePrints (env : Env) (config : Config) (n : Nat) (e : Event)
    (h : e ∈ expirePrints env config n) : ∃ s, e = Event.print s := by
  unfold expirePrints at h
  split at h <;> simp at h
  exact ⟨_, h⟩

/-- On a successful submission, `run_and_replay` returns the decoded
output and appends only the submission event and the message-id print. -/
theorem run_and_replay_ok (env : Env) (config : Config) (trPre : List Event)
    (dump : Option (String × String × String × Nat)) (v : Json)
    (hpm : env.process_message = .ok v) :
    run_and_replay env config trPre dump =
      (.ok v, trPre ++ Event.processMessage :: msgIdPrints env config) := by
  simp only [run_and_replay, hpm]

/-- On an error whose code is not the recognized execution-error code,
`run_and_replay` returns the formatted error with no replay. -/
theorem run_and_replay_other_err (env : Env) (config : Config)
    (trPre : List Event) (dump : Option (String × String × String × Nat))
    (e : ClientError) (hpm : env.process_message = .error e)
    (hcode : e.code ≠ SDK_EXECUTION_ERROR_CODE) :
    run_and_replay env config trPre dump =
      (.err (fmtClientError e),
       trPre ++ Event.processMessage :: msgIdPrints env config) := by
  have hc : (config.debug_fail_enabled &&
      (e.code == SDK_EXECUTION_ERROR_CODE)) = false := by
    simp [hcode]
  simp only [run_and_replay, hpm, hc]
  simp

/-- With no diagnostic mode, any error is returned formatted with no
replay. -/
theorem run_and_replay_nodbg (env : Env) (config : Config)
    (trPre : List Event) (dump : Option (String × String × String × Nat))
    (e : ClientError) (hpm : env.process_message = .error e)
    (hdbg : config.debug_fail_enabled = false) :
    run_and_replay env config trPre dump =
      (.err (fmtClientError e),
       trPre ++ Event.processMessage :: msgIdPrints env config) := by
  have hc : (config.debug_fail_enabled &&
      (e.code == SDK_EXECUTION_ERROR_CODE)) = false := by
    simp [hdbg]
  simp only [run_and_replay, hpm, hc]
  simp

/-- Replay branch, message reconstruction fails: layered error, no
executor run. -/
theorem run_and_replay_construct_err (env : Env) (config : Config)
    (trPre : List Event) (bc account m : String) (nms : Nat)
    (e : ClientError) (ce : String)
    (hpm : env.process_message = .error e)
    (hdbg : config.debug_fail_enabled = true)
    (hcode : e.code = SDK_EXECUTION_ERROR_CODE)
    (hcm : env.construct_message m = .error ce) :
    run_and_replay env config trPre (some (bc, account, m, nms)) =
      (.err ("failed to construct message: " ++ ce),
       (trPre ++ Event.processMessage :: msgIdPrints env config) ++
         Event.replayTriggered :: replayPrints config e) := by
  have hc : (config.debug_fail_enabled &&
      (e.code == SDK_EXECUTION_ERROR_CODE)) = true := by
    simp [hdbg, hcode]
  simp only [run_and_replay, hpm, hc, hcm]
  simp

/-- Replay branch, tracing executor itself fails: its error is returned,
layered over the original failure; no trace file is reported. -/
theorem run_and_replay_debug_err (env : Env) (config : Config)
    (trPre : List Event) (bc account m mc : String) (nms : Nat)
    (e : ClientError) (de : String)
    (hpm : env.process_message = .error e)
    (hdbg : config.debug_fail_enabled = true)
    (hcode : e.code = SDK_EXECUTION_ERROR_CODE)
    (hcm : env.construct_message m = .ok mc)
    (hed : env.execute_debug bc account mc = .error de) :
    run_and_replay env config trPre (some (bc, account, m, nms)) =
      (.err de,
       (trPre ++ Event.processMessage :: msgIdPrints env config) ++
         Event.replayTriggered :: (replayPrints config e ++
           [Event.executeDebug bc account mc nms])) := by
  have hc : (config.debug_fail_enabled &&
      (e.code == SDK_EXECUTION_ERROR_CODE)) = true := by
    simp [hdbg, hcode]
  simp only [run_and_replay, execute_debug_step, hpm, hc, hcm, hed]
  simp

/-- Replay branch, successful replay: the trace file is written and the
empty-string terminal error is returned. -/
theorem run_and_replay_exec_error (env : Env) (config : Config)
    (trPre : List Event) (bc account m mc : String) (nms : Nat)
    (e : ClientError)
    (hpm : env.process_message = .error e)
    (hdbg : config.debug_fail_enabled = true)
    (hcode : e.code = SDK_EXECUTION_ERROR_CODE)
    (hcm : env.construct_message m = .ok mc)
    (hed : env.execute_debug bc account mc = .ok ()) :
    run_and_replay env config trPre (some (bc, account, m, nms)) =
      (.err "",
       (trPre ++ Event.processMessage :: msgIdPrints env config) ++
         Event.replayTriggered :: (replayPrints config e ++
           [Event.executeDebug bc account mc nms,
            Event.traceWritten TRACE_PATH] ++
           debugDonePrints config)) := by
  have hc : (config.debug_fail_enabled &&
      (e.code == SDK_EXECUTION_ERROR_CODE)) = true := by
    simp [hdbg, hcode]
  simp only [run_and_replay, execute_debug_step, hpm, hc, hcm, hed]
  simp

/-- The main diagnostic-mode path of `call_contract_with_client`: with
the ABI, header, parameter preparation and encoding phase all succeeding
and the two snapshot fetches and reconstructions succeeding, the call is
exactly `run_and_replay` on the pre-fetched snapshot, its events appended
to the encoding-phase events. -/
theorem call_debug_path (env : Env) (config : Config)
    (addr abi_string method params : String) (keys : Option String)
    (nowv : Nat) (m accBoc accSer cfgBoc : String) (cfgAcc : Nat) (bc : String)
    (tr0 : List Event)
    (hdbg : config.debug_fail_enabled = true)
    (habi : env.load_abi abi_string = .ok ())
    (hnow : env.now = .ok nowv)
    (hprep : env.prepare_message_params addr method params keys = .ok ())
    (hphase : encode_phase env config addr false = (.cont (some m), tr0))
    (hq1 : env.query_account_field addr "boc" = .ok accBoc)
    (hca : env.account_cell_of_boc accBoc = .ok accSer)
    (hq2 : env.query_account_field CONFIG_ADDR "boc" = .ok cfgBoc)
    (hcc : env.construct_config_account cfgBoc = .ok cfgAcc)
    (hbc : env.construct_blockchain_config cfgAcc = .ok bc) :
    call_contract_with_client env config addr abi_string method params keys
        false =
      ((run_and_replay env config
          (expirePrints env config (config.lifetime + nowv) ++
            [Event.queryAccountField addr "boc",
             Event.queryAccountField CONFIG_ADDR "boc"])
          (some (bc, accSer, m, env.now_ms))).1,
       tr0 ++
         (run_and_replay env config
           (expirePrints env config (config.lifetime + nowv) ++
             [Event.queryAccountField addr "boc",
              Event.queryAccountField CONFIG_ADDR "boc"])
           (some (bc, accSer, m, env.now_ms))).2) := by
  simp only [call_contract_with_client, habi, hnow, hprep, hphase,
    after_encode, hdbg, if_true, build_dump, hq1, hca, hq2, hcc, hbc]

/-- Everything the encoding phase emits is pre-submission: its trace
contains no replay marker, no submission event, no trace-file write. -/
theorem encode_phase_no_mark (env : Env) (config : Config) (addr : String)
    (is_fee : Bool) (r : Phase1Res) (tr : List Event)
    (h : encode_phase env config addr is_fee = (r, tr)) :
    Event.replayTriggered ∉ tr ∧ Event.processMessage ∉ tr ∧
      (∀ p, Event.traceWritten p ∉ tr) ∧
      ∀ b a mm k, Event.executeDebug b a mm k ∉ tr := by
  have hall := encode_phase_pre env config addr is_fee
  rw [h] at hall
  refine ⟨fun hm => ?_, fun hm => ?_, fun p hm => ?_, fun b a mm k hm => ?_⟩ <;>
    · have := hall _ hm
      simp [isPreEvent] at this

/-- Membership in the no-replay tail of the diagnostic path: every event
is an encoding-phase event, a print, one of the two snapshot queries, or
the submission event itself. -/
theorem mem_plain_trace (env : Env) (config : Config) (tr0 : List Event)
    (n : Nat) (addr : String) (e : Event)
    (hm : e ∈ tr0 ++ ((expirePrints env config n ++
        [Event.queryAccountField addr "boc",
         Event.queryAccountField CONFIG_ADDR "boc"]) ++
        Event.processMessage :: msgIdPrints env config)) :
    e ∈ tr0 ∨ (∃ s, e = Event.print s) ∨
      e = Event.queryAccountField addr "boc" ∨
      e = Event.queryAccountField CONFIG_ADDR "boc" ∨
      e = Event.processMessage := by
  rcases List.mem_append.mp hm with hm | hm
  · exact Or.inl hm
  · rcases List.mem_append.mp hm with hm | hm
    · rcases List.mem_append.mp hm with hm | hm
      · exact Or.inr (Or.inl (mem_expirePrints env config n e hm))
      · simp only [List.mem_cons, List.mem_singleton, List.not_mem_nil, or_false] at hm
        rcases hm with rfl | rfl
        · exact Or.inr (Or.inr (Or.inl rfl))
        · exact Or.inr (Or.inr (Or.inr (Or.inl rfl)))
    · rcases List.mem_cons.mp hm with rfl | hm
      · exact Or.inr (Or.inr (Or.inr (Or.inr rfl)))
      · exact Or.inr (Or.inl (mem_msgIdPrints env config e hm))

/-! ### C1: replay trigger condition -/

/-- C1: in diagnostic mode, on the path that reaches submission, the
failure replay is triggered exactly when `process_message` fails with the
recognized execution-error code; every error with another code is
returned as a formatted terminal failure with no replay (and, by the
equivalence, no replay marker in the trace). -/
theorem c1_replay_iff_execution_error_code
    (env : Env) (config : Config)
    (addr abi_string method params : String) (keys : Option String)
    (nowv : Nat) (m accBoc accSer cfgBoc : String) (cfgAcc : Nat) (bc : String)
    (tr0 : List Event)
    (hdbg : config.debug_fail_enabled = true)
    (habi : env.load_abi abi_string = .ok ())
    (hnow : env.now = .ok nowv)
    (hprep : env.prepare_message_params addr method params keys = .ok ())
    (hphase : encode_phase env config addr false = (.cont (some m), tr0))
    (hq1 : env.query_account_field addr "boc" = .ok accBoc)
    (hca : env.account_cell_of_boc accBoc = .ok accSer)
    (hq2 : env.query_account_field CONFIG_ADDR "boc" = .ok cfgBoc)
    (hcc : env.construct_config_account cfgBoc = .ok cfgAcc)
    (hbc : env.construct_blockchain_config cfgAcc = .ok bc) :
    (Event.replayTriggered ∈
        (call_contract_with_client env config addr abi_string method params
          keys false).2 ↔
      ∃ e, env.process_message = .error e ∧
        e.code = SDK_EXECUTION_ERROR_CODE) ∧
    ∀ e, env.process_message = .error e →
      e.code ≠ SDK_EXECUTION_ERROR_CODE →
      call_contract_with_client env config addr abi_string method params
          keys false =
        (.err (fmtClientError e),
         tr0 ++ ((expirePrints env config (config.lifetime + nowv) ++
           [Event.queryAccountField addr "boc",
            Event.queryAccountField CONFIG_ADDR "boc"]) ++
           Event.processMessage :: msgIdPrints env config)) := by
  have hpath := call_debug_path env config addr abi_string method params keys
    nowv m accBoc accSer cfgBoc cfgAcc bc tr0 hdbg habi hnow hprep hphase
    hq1 hca hq2 hcc hbc
  obtain ⟨hnr, hnp, -⟩ := encode_phase_no_mark env config addr false _ _ hphase
  constructor
  · constructor
    · intro hmem
      rcases hpm : env.process_message with e | v
      · by_cases hcode : e.code = SDK_EXECUTION_ERROR_CODE
        · exact ⟨e, rfl, hcode⟩
        · exfalso
          rw [hpath, run_and_replay_other_err env config _ _ e hpm hcode] at hmem
          rcases mem_plain_trace env config tr0 _ addr _ hmem with
            hm | ⟨s, hs⟩ | hs | hs | hs
          · exact hnr hm
          · exact Event.noConfusion hs
          · exact Event.noConfusion hs
          · exact Event.noConfusion hs
          · exact Event.noConfusion hs
      · exfalso
        rw [hpath, run_and_replay_ok env config _ _ v hpm] at hmem
        rcases mem_plain_trace env config tr0 _ addr _ hmem with
          hm | ⟨s, hs⟩ | hs | hs | hs
        · exact hnr hm
        · exact Event.noConfusion hs
        · exact Event.noConfusion hs
        · exact Event.noConfusion hs
        · exact Event.noConfusion hs
    · rintro ⟨e, hpm, hcode⟩
      rcases hcm : env.construct_message m with ce | mc
      · rw [hpath, run_and_replay_construct_err env config _ bc accSer m
          env.now_ms e ce hpm hdbg hcode hcm]
        simp
      · rcases hed : env.execute_debug bc accSer mc with de | u
        · rw [hpath, run_and_replay_debug_err env config _ bc accSer m mc
            env.now_ms e de hpm hdbg hcode hcm hed]
          simp
        · cases u
          rw [hpath, run_and_replay_exec_error env config _ bc accSer m mc
            env.now_ms e hpm hdbg hcode hcm hed]
          simp
  · intro e hpm hcode
    rw [hpath, run_and_replay_other_err env config _ _ e hpm hcode]

/-- Membership in the replay tail when message reconstruction failed. -/
theorem mem_replay_tail_construct (config : Config) (err : ClientError)
    (x : Event) (hm : x ∈ Event.replayTriggered :: replayPrints config err) :
    x = Event.replayTriggered ∨ ∃ s, x = Event.print s := by
  rcases List.mem_cons.mp hm with rfl | hm
  · exact Or.inl rfl
  · exact Or.inr (mem_replayPrints config err x hm)

/-- Membership in the replay tail when the tracing executor failed. -/
theorem mem_replay_tail_debug_err (config : Config) (err : ClientError)
    (bc account mc : String) (nms : Nat) (x : Event)
    (hm : x ∈ Event.replayTriggered :: (replayPrints config err ++
      [Event.executeDebug bc account mc nms])) :
    x = Event.replayTriggered ∨ (∃ s, x = Event.print s) ∨
      x = Event.executeDebug bc account mc nms := by
  rcases List.mem_cons.mp hm with rfl | hm
  · exact Or.inl rfl
  · rcases List.mem_append.mp hm with hm | hm
    · exact Or.inr (Or.inl (mem_replayPrints config err x hm))
    · simp at hm
      exact Or.inr (Or.inr hm)

/-- Membership in the replay tail of a successful replay. -/
theorem mem_replay_tail_ok (config : Config) (err : ClientError)
    (bc account mc : String) (nms : Nat) (x : Event)
    (hm : x ∈ Event.replayTriggered :: (replayPrints config err ++
      [Event.executeDebug bc account mc nms, Event.traceWritten TRACE_PATH] ++
      debugDonePrints config)) :
    x = Event.replayTriggered ∨ (∃ s, x = Event.print s) ∨
      x = Event.executeDebug bc account mc nms ∨
      x = Event.traceWritten TRACE_PATH := by
  rcases List.mem_cons.mp hm with rfl | hm
  · exact Or.inl rfl
  · rcases List.mem_append.mp hm with hm | hm
    · rcases List.mem_append.mp hm with hm | hm
      · exact Or.inr (Or.inl (mem_replayPrints config err x hm))
      · simp at hm
        rcases hm with rfl | rfl
        · exact Or.inr (Or.inr (Or.inl rfl))
        · exact Or.inr (Or.inr (Or.inr rfl))
    · exact Or.inr (Or.inl (mem_debugDonePrints config x hm))

/-- The pre-submission middle of the diagnostic trace (expiry print,
snapshot queries, submission event, message-id print) contains no
executor-replay event. -/
theorem executeDebug_not_mem_mid (env : Env) (config : Config) (n : Nat)
    (addr : String) (b a mm : String) (k : Nat)
    (hm : Event.executeDebug b a mm k ∈ (expirePrints env config n ++
      [Event.queryAccountField addr "boc",
       Event.queryAccountField CONFIG_ADDR "boc"]) ++
      Event.processMessage :: msgIdPrints env config) : False := by
  rcases List.mem_append.mp hm with hm | hm
  · rcases List.mem_append.mp hm with hm | hm
    · obtain ⟨s, hs⟩ := mem_expirePrints env config n _ hm
      exact Event.noConfusion hs
    · simp at hm
  · rcases List.mem_cons.mp hm with hs | hm
    · exact Event.noConfusion hs
    · obtain ⟨s, hs⟩ := mem_msgIdPrints env config _ hm
      exact Event.noConfusion hs

/-! ### C2: a triggered replay writes the trace and fails terminally -/

/-- C2 counterexample: on a concrete diagnostic-mode run whose
submission fails with the recognized execution-error code and whose
replay succeeds, the terminal error is `Err("")` — a failure whose
message is *empty*, refuting "a non-empty failure". -/
theorem c2_counterexample :
    (call_contract_with_client envExecFail cfgDebug "0:ab" "abi" "mthd"
        "prms" none false).1 = .err "" ∧
    ¬ ∃ s, (call_contract_with_client envExecFail cfgDebug "0:ab" "abi"
        "mthd" "prms" none false).1 = Outcome.err s ∧ s ≠ "" := by
  have h : (call_contract_with_client envExecFail cfgDebug "0:ab" "abi"
      "mthd" "prms" none false).1 = .err "" := by rfl
  refine ⟨h, ?_⟩
  rintro ⟨s, hs, hne⟩
  rw [h] at hs
  cases hs
  exact hne rfl

/-- C2 (amended): whenever the replay is triggered (diagnostic mode,
recognized execution-error code) and the replay machinery succeeds, the
call persists the trace at the fixed diagnostic-log path and returns a
terminal failure — never a success — whose error message is the empty
string; the submission is performed exactly once, never retried. -/
theorem c2_replay_terminal_failure
    (env : Env) (config : Config)
    (addr abi_string method params : String) (keys : Option String)
    (nowv : Nat) (m accBoc accSer cfgBoc : String) (cfgAcc : Nat) (bc : String)
    (tr0 : List Event) (e : ClientError) (mc : String)
    (hdbg : config.debug_fail_enabled = true)
    (habi : env.load_abi abi_string = .ok ())
    (hnow : env.now = .ok nowv)
    (hprep : env.prepare_message_params addr method params keys = .ok ())
    (hphase : encode_phase env config addr false = (.cont (some m), tr0))
    (hq1 : env.query_account_field addr "boc" = .ok accBoc)
    (hca : env.account_cell_of_boc accBoc = .ok accSer)
    (hq2 : env.query_account_field CONFIG_ADDR "boc" = .ok cfgBoc)
    (hcc : env.construct_config_account cfgBoc = .ok cfgAcc)
    (hbc : env.construct_blockchain_config cfgAcc = .ok bc)
    (hpm : env.process_message = .error e)
    (hcode : e.code = SDK_EXECUTION_ERROR_CODE)
    (hcm : env.construct_message m = .ok mc)
    (hed : env.execute_debug bc accSer mc = .ok ()) :
    (call_contract_with_client env config addr abi_string method params keys
        false).1 = .err "" ∧
    Event.traceWritten TRACE_PATH ∈
      (call_contract_with_client env config addr abi_string method params
        keys false).2 ∧
    (∀ v, (call_contract_with_client env config addr abi_string method
        params keys false).1 ≠ Outcome.ok v) ∧
    ∃ l1 l2,
      (call_contract_with_client env config addr abi_string method params
        keys false).2 = l1 ++ Event.processMessage :: l2 ∧
      Event.processMessage ∉ l1 ∧ Event.processMessage ∉ l2 := by
  have hpath := call_debug_path env config addr abi_string method params keys
    nowv m accBoc accSer cfgBoc cfgAcc bc tr0 hdbg habi hnow hprep hphase
    hq1 hca hq2 hcc hbc
  obtain ⟨-, hnp, -⟩ := encode_phase_no_mark env config addr false _ _ hphase
  rw [hpath, run_and_replay_exec_error env config _ bc accSer m mc env.now_ms
    e hpm hdbg hcode hcm hed]
  refine ⟨rfl, by simp, fun v h => Outcome.noConfusion h, ?_⟩
  refine ⟨tr0 ++ (expirePrints env config (config.lifetime + nowv) ++
      [Event.queryAccountField addr "boc",
       Event.queryAccountField CONFIG_ADDR "boc"]),
    msgIdPrints env config ++ Event.replayTriggered ::
      (replayPrints config e ++
        [Event.executeDebug bc accSer mc env.now_ms,
         Event.traceWritten TRACE_PATH] ++ debugDonePrints config),
    ?_, ?_, ?_⟩
  · simp
  · intro hm
    rcases List.mem_append.mp hm with hm | hm
    · exact hnp hm
    · rcases List.mem_append.mp hm with hm | hm
      · obtain ⟨s, hs⟩ := mem_expirePrints env config _ _ hm
        exact Event.noConfusion hs
      · simp at hm
  · intro hm
    rcases List.mem_append.mp hm with hm | hm
    · obtain ⟨s, hs⟩ := mem_msgIdPrints env config _ hm
      exact Event.noConfusion hs
    · rcases mem_replay_tail_ok config e bc accSer mc env.now_ms _ hm with
        hs | ⟨s, hs⟩ | hs | hs
      · exact Event.noConfusion hs
      · exact Event.noConfusion hs
      · exact Event.noConfusion hs
      · exact Event.noConfusion hs

/-! ### C5: snapshots predate submission and are consumed unchanged -/

/-- C5: in diagnostic mode (on the successful snapshot path) the target
account's state and the configuration account's state are fetched before
`process_message` submits — both query events sit strictly before the
submission event in the trace — and any replay consumes exactly the
snapshot built from those pre-submission fetches. -/
theorem c5_snapshot_before_submission
    (env : Env) (config : Config)
    (addr abi_string method params : String) (keys : Option String)
    (nowv : Nat) (m accBoc accSer cfgBoc : String) (cfgAcc : Nat) (bc : String)
    (tr0 : List Event)
    (hdbg : config.debug_fail_enabled = true)
    (habi : env.load_abi abi_string = .ok ())
    (hnow : env.now = .ok nowv)
    (hprep : env.prepare_message_params addr method params keys = .ok ())
    (hphase : encode_phase env config addr false = (.cont (some m), tr0))
    (hq1 : env.query_account_field addr "boc" = .ok accBoc)
    (hca : env.account_cell_of_boc accBoc = .ok accSer)
    (hq2 : env.query_account_field CONFIG_ADDR "boc" = .ok cfgBoc)
    (hcc : env.construct_config_account cfgBoc = .ok cfgAcc)
    (hbc : env.construct_blockchain_config cfgAcc = .ok bc) :
    (∃ l1 l2,
      (call_contract_with_client env config addr abi_string method params
        keys false).2 = l1 ++ Event.processMessage :: l2 ∧
      Event.queryAccountField addr "boc" ∈ l1 ∧
      Event.queryAccountField CONFIG_ADDR "boc" ∈ l1) ∧
    ∀ b a mm k,
      Event.executeDebug b a mm k ∈
        (call_contract_with_client env config addr abi_string method params
          keys false).2 →
      b = bc ∧ a = accSer := by
  have hpath := call_debug_path env config addr abi_string method params keys
    nowv m accBoc accSer cfgBoc cfgAcc bc tr0 hdbg habi hnow hprep hphase
    hq1 hca hq2 hcc hbc
  obtain ⟨-, -, -, hnx⟩ := encode_phase_no_mark env config addr false _ _ hphase
  constructor
  · rcases hpm : env.process_message with e | v
    · by_cases hcode : e.code = SDK_EXECUTION_ERROR_CODE
      · rcases hcm : env.construct_message m with ce | mc
        · rw [hpath, run_and_replay_construct_err env config _ bc accSer m
            env.now_ms e ce hpm hdbg hcode hcm]
          refine ⟨tr0 ++ (expirePrints env config (config.lifetime + nowv) ++
            [Event.queryAccountField addr "boc",
             Event.queryAccountField CONFIG_ADDR "boc"]),
            msgIdPrints env config ++ Event.replayTriggered ::
              replayPrints config e, by simp, by simp, by simp⟩
        · rcases hed : env.execute_debug bc accSer mc with de | u
          · rw [hpath, run_and_replay_debug_err env config _ bc accSer m mc
              env.now_ms e de hpm hdbg hcode hcm hed]
            refine ⟨tr0 ++ (expirePrints env config (config.lifetime + nowv) ++
              [Event.queryAccountField addr "boc",
               Event.queryAccountField CONFIG_ADDR "boc"]),
              msgIdPrints env config ++ Event.replayTriggered ::
                (replayPrints config e ++
                  [Event.executeDebug bc accSer mc env.now_ms]),
              by simp, by simp, by simp⟩
          · cases u
            rw [hpath, run_and_replay_exec_error env config _ bc accSer m mc
              env.now_ms e hpm hdbg hcode hcm hed]
            refine ⟨tr0 ++ (expirePrints env config (config.lifetime + nowv) ++
              [Event.queryAccountField addr "boc",
               Event.queryAccountField CONFIG_ADDR "boc"]),
              msgIdPrints env config ++ Event.replayTriggered ::
                (replayPrints config e ++
                  [Event.executeDebug bc accSer mc env.now_ms,
                   Event.traceWritten TRACE_PATH] ++ debugDonePrints config),
              by simp, by simp, by simp⟩
      · rw [hpath, run_and_replay_other_err env config _ _ e hpm hcode]
        refine ⟨tr0 ++ (expirePrints env config (config.lifetime + nowv) ++
          [Event.queryAccountField addr "boc",
           Event.queryAccountField CONFIG_ADDR "boc"]),
          msgIdPrints env config, by simp, by simp, by simp⟩
    · rw [hpath, run_and_replay_ok env config _ _ v hpm]
      refine ⟨tr0 ++ (expirePrints env config (config.lifetime + nowv) ++
        [Event.queryAccountField addr "boc",
         Event.queryAccountField CONFIG_ADDR "boc"]),
        msgIdPrints env config, by simp, by simp, by simp⟩
  · intro b a mm k hm
    rcases hpm : env.process_message with e | v
    · by_cases hcode : e.code = SDK_EXECUTION_ERROR_CODE
      · rcases hcm : env.construct_message m with ce | mc
        · rw [hpath, run_and_replay_construct_err env config _ bc accSer m
            env.now_ms e ce hpm hdbg hcode hcm] at hm
          rcases List.mem_append.mp hm with hm | hm
          · exact absurd hm (hnx b a mm k)
          · rcases List.mem_append.mp hm with hm | hm
            · exact absurd hm (fun hm =>
                executeDebug_not_mem_mid env config _ addr b a mm k hm)
            · rcases mem_replay_tail_construct config e _ hm with hs | ⟨s, hs⟩
              · exact Event.noConfusion hs
              · exact Event.noConfusion hs
        · rcases hed : env.execute_debug bc accSer mc with de | u
          · rw [hpath, run_and_replay_debug_err env config _ bc accSer m mc
              env.now_ms e de hpm hdbg hcode hcm hed] at hm
            rcases List.mem_append.mp hm with hm | hm
            · exact absurd hm (hnx b a mm k)
            · rcases List.mem_append.mp hm with hm | hm
              · exact absurd hm (fun hm =>
                  executeDebug_not_mem_mid env config _ addr b a mm k hm)
              · rcases mem_replay_tail_debug_err config e bc accSer mc
                  env.now_ms _ hm with hs | ⟨s, hs⟩ | hs
                · exact Event.noConfusion hs
                · exact Event.noConfusion hs
                · injection hs with h1 h2 h3 h4
                  exact ⟨h1, h2⟩
          · cases u
            rw [hpath, run_and_replay_exec_error env config _ bc accSer m mc
              env.now_ms e hpm hdbg hcode hcm hed] at hm
            rcases List.mem_append.mp hm with hm | hm
            · exact absurd hm (hnx b a mm k)
            · rcases List.mem_append.mp hm with hm | hm
              · exact absurd hm (fun hm =>
                  executeDebug_not_mem_mid env config _ addr b a mm k hm)
              · rcases mem_replay_tail_ok config e bc accSer mc
                  env.now_ms _ hm with hs | ⟨s, hs⟩ | hs | hs
                · exact Event.noConfusion hs
                · exact Event.noConfusion hs
                · injection hs with h1 h2 h3 h4
                  exact ⟨h1, h2⟩
                · exact Event.noConfusion hs
      · rw [hpath, run_and_replay_other_err env config _ _ e hpm hcode] at hm
        rcases List.mem_append.mp hm with hm | hm
        · exact absurd hm (hnx b a mm k)
        · exact absurd hm (fun hm =>
            executeDebug_not_mem_mid env config _ addr b a mm k hm)
    · rw [hpath, run_and_replay_ok env config _ _ v hpm] at hm
      rcases List.mem_append.mp hm with hm | hm
      · exact absurd hm (hnx b a mm k)
      · exact absurd hm (fun hm =>
          executeDebug_not_mem_mid env config _ addr b a mm k hm)

/-! ### C6: fee estimation for a missing account -/

/-- C6: a fee-estimation call whose target has no on-chain account
synthesizes a zero-balance placeholder account for the parsed address,
runs the executor on it with unlimited balance, prints the six fee
fields, and returns `Null` without ever submitting (no `process_message`,
no `send_message`); the same missing account in non-fee mode is a hard
error. -/
theorem c6_fee_missing_account
    (env : Env) (config : Config)
    (addr abi_string method params : String) (keys : Option String)
    (nowv : Nat) (m qerr pa dummyBoc : String) (fees : Fees)
    (habi : env.load_abi abi_string = .ok ())
    (hnow : env.now = .ok nowv)
    (hprep : env.prepare_message_params addr method params keys = .ok ())
    (henc : env.encode_message = .ok m)
    (hq : env.query_account_field addr "boc" = .error qerr)
    (hpa : env.parse_address addr = .ok pa)
    (hser : env.serialize_account (Account.with_address pa) = .ok dummyBoc)
    (hrun : env.run_executor dummyBoc (some true) m = .ok fees) :
    call_contract_with_client env config addr abi_string method params keys
        true =
      (.ok Json.null,
       [Event.encodeMessage, Event.queryAccountField addr "boc",
        Event.runExecutor dummyBoc (some true) m,
        Event.print "\x7b",
        Event.print ("  \"in_msg_fwd_fee\": \"" ++ toString fees.in_msg_fwd_fee ++ "\","),
        Event.print ("  \"storage_fee\": \"" ++ toString fees.storage_fee ++ "\","),
        Event.print ("  \"gas_fee\": \"" ++ toString fees.gas_fee ++ "\","),
        Event.print ("  \"out_msgs_fwd_fee\": \"" ++ toString fees.out_msgs_fwd_fee ++ "\","),
        Event.print ("  \"total_account_fees\": \"" ++ toString fees.total_account_fees ++ "\","),
        Event.print ("  \"total_output\": \"" ++ toString fees.total_output ++ "\""),
        Event.print "\x7d"]) ∧
    (Account.with_address pa).balance = 0 ∧
    Event.processMessage ∉
      (call_contract_with_client env config addr abi_string method params
        keys true).2 ∧
    Event.sendMsg ∉
      (call_contract_with_client env config addr abi_string method params
        keys true).2 ∧
    (emulate_locally env addr m false).1 = .error qerr := by
  have hemu : emulate_locally env addr m true =
      (.ok (), [Event.queryAccountField addr "boc",
        Event.runExecutor dummyBoc (some true) m,
        Event.print "\x7b",
        Event.print ("  \"in_msg_fwd_fee\": \"" ++ toString fees.in_msg_fwd_fee ++ "\","),
        Event.print ("  \"storage_fee\": \"" ++ toString fees.storage_fee ++ "\","),
        Event.print ("  \"gas_fee\": \"" ++ toString fees.gas_fee ++ "\","),
        Event.print ("  \"out_msgs_fwd_fee\": \"" ++ toString fees.out_msgs_fwd_fee ++ "\","),
        Event.print ("  \"total_account_fees\": \"" ++ toString fees.total_account_fees ++ "\","),
        Event.print ("  \"total_output\": \"" ++ toString fees.total_output ++ "\""),
        Event.print "\x7d"]) := by
    simp [emulate_locally, emulate_run, hq, hpa, hser, hrun]
  have hcall : call_contract_with_client env config addr abi_string method
      params keys true =
      (.ok Json.null,
       [Event.encodeMessage, Event.queryAccountField addr "boc",
        Event.runExecutor dummyBoc (some true) m,
        Event.print "\x7b",
        Event.print ("  \"in_msg_fwd_fee\": \"" ++ toString fees.in_msg_fwd_fee ++ "\","),
        Event.print ("  \"storage_fee\": \"" ++ toString fees.storage_fee ++ "\","),
        Event.print ("  \"gas_fee\": \"" ++ toString fees.gas_fee ++ "\","),
        Event.print ("  \"out_msgs_fwd_fee\": \"" ++ toString fees.out_msgs_fwd_fee ++ "\","),
        Event.print ("  \"total_account_fees\": \"" ++ toString fees.total_account_fees ++ "\","),
        Event.print ("  \"total_output\": \"" ++ toString fees.total_output ++ "\""),
        Event.print "\x7d"]) := by
    simp [call_contract_with_client, habi, hnow, hprep, encode_phase, henc,
      hemu]
  refine ⟨hcall, rfl, ?_, ?_, ?_⟩
  · rw [hcall]
    simp
  · rw [hcall]
    simp
  · simp [emulate_locally, hq]

theorem c6_witness :
    envNoAcc.query_account_field "0:ab" "boc" =
      .error "failed to query account boc: no data" ∧
    envNoAcc.serialize_account (Account.with_address "0:ab") =
      .ok "DUMMYBOC" ∧
    (call_contract_with_client envNoAcc cfgPlain "0:ab" "abi" "mthd" "prms"
        none true =
      (.ok Json.null,
       [Event.encodeMessage, Event.queryAccountField "0:ab" "boc",
        Event.runExecutor "DUMMYBOC" (some true) "MSG",
        Event.print "\x7b",
        Event.print ("  \"in_msg_fwd_fee\": \"" ++ toString fees0.in_msg_fwd_fee ++ "\","),
        Event.print ("  \"storage_fee\": \"" ++ toString fees0.storage_fee ++ "\","),
        Event.print ("  \"gas_fee\": \"" ++ toString fees0.gas_fee ++ "\","),
        Event.print ("  \"out_msgs_fwd_fee\": \"" ++ toString fees0.out_msgs_fwd_fee ++ "\","),
        Event.print ("  \"total_account_fees\": \"" ++ toString fees0.total_account_fees ++ "\","),
        Event.print ("  \"total_output\": \"" ++ toString fees0.total_output ++ "\""),
        Event.print "\x7d"]) ∧
    (Account.with_address "0:ab").balance = 0 ∧
    Event.processMessage ∉
      (call_contract_with_client envNoAcc cfgPlain "0:ab" "abi" "mthd" "prms"
        none true).2 ∧
    Event.sendMsg ∉
      (call_contract_with_client envNoAcc cfgPlain "0:ab" "abi" "mthd" "prms"
        none true).2 ∧
    (emulate_locally envNoAcc "0:ab" "MSG" false).1 =
      .error "failed to query account boc: no data") :=
  ⟨rfl, rfl,
   c6_fee_missing_account envNoAcc cfgPlain "0:ab" "abi" "mthd" "prms" none
     1000 "MSG" "failed to query account boc: no data" "0:ab" "DUMMYBOC"
     fees0 rfl rfl rfl rfl rfl rfl rfl rfl⟩

theorem c1_witness :
    cfgDebug.debug_fail_enabled = true ∧
    encode_phase envExecFail cfgDebug "0:ab" false =
      (.cont (some "MSG"), [Event.encodeMessage]) ∧
    envExecFail.query_account_field "0:ab" "boc" = .ok "BOC" ∧
    ((Event.replayTriggered ∈
        (call_contract_with_client envExecFail cfgDebug "0:ab" "abi" "mthd"
          "prms" none false).2 ↔
      ∃ e, envExecFail.process_message = .error e ∧
        e.code = SDK_EXECUTION_ERROR_CODE) ∧
    ∀ e, envExecFail.process_message = .error e →
      e.code ≠ SDK_EXECUTION_ERROR_CODE →
      call_contract_with_client envExecFail cfgDebug "0:ab" "abi" "mthd"
          "prms" none false =
        (.err (fmtClientError e),
         [Event.encodeMessage] ++
           ((expirePrints envExecFail cfgDebug (cfgDebug.lifetime + 1000) ++
             [Event.queryAccountField "0:ab" "boc",
              Event.queryAccountField CONFIG_ADDR "boc"]) ++
            Event.processMessage :: msgIdPrints envExecFail cfgDebug))) :=
  ⟨rfl, rfl, rfl,
   c1_replay_iff_execution_error_code envExecFail cfgDebug "0:ab" "abi"
     "mthd" "prms" none 1000 "MSG" "BOC" "ACC" "BOC" 7 "BCCFG"
     [Event.encodeMessage] rfl rfl rfl rfl rfl rfl rfl rfl rfl rfl⟩

theorem c2_witness :
    cfgDebug.debug_fail_enabled = true ∧
    envExecFail.process_message =
      .error ⟨SDK_EXECUTION_ERROR_CODE,
        "Contract execution was terminated with error"⟩ ∧
    envExecFail.execute_debug "BCCFG" "ACC" "MSGCELL:MSG" = .ok () ∧
    ((call_contract_with_client envExecFail cfgDebug "0:ab" "abi" "mthd"
        "prms" none false).1 = .err "" ∧
    Event.traceWritten TRACE_PATH ∈
      (call_contract_with_client envExecFail cfgDebug "0:ab" "abi" "mthd"
        "prms" none false).2 ∧
    (∀ v, (call_contract_with_client envExecFail cfgDebug "0:ab" "abi"
        "mthd" "prms" none false).1 ≠ Outcome.ok v) ∧
    ∃ l1 l2,
      (call_contract_with_client envExecFail cfgDebug "0:ab" "abi" "mthd"
        "prms" none false).2 = l1 ++ Event.processMessage :: l2 ∧
      Event.processMessage ∉ l1 ∧ Event.processMessage ∉ l2) :=
  ⟨rfl, rfl, rfl,
   c2_replay_terminal_failure envExecFail cfgDebug "0:ab" "abi" "mthd"
     "prms" none 1000 "MSG" "BOC" "ACC" "BOC" 7 "BCCFG" [Event.encodeMessage]
     ⟨SDK_EXECUTION_ERROR_CODE, "Contract execution was terminated with error"⟩
     "MSGCELL:MSG" rfl rfl rfl rfl rfl rfl rfl rfl rfl rfl rfl rfl rfl rfl⟩

theorem c5_witness :
    cfgDebug.debug_fail_enabled = true ∧
    envBase.query_account_field "0:ab" "boc" = .ok "BOC" ∧
    envBase.construct_blockchain_config 7 = .ok "BCCFG" ∧
    ((∃ l1 l2,
      (call_contract_with_client envBase cfgDebug "0:ab" "abi" "mthd" "prms"
        none false).2 = l1 ++ Event.processMessage :: l2 ∧
      Event.queryAccountField "0:ab" "boc" ∈ l1 ∧
      Event.queryAccountField CONFIG_ADDR "boc" ∈ l1) ∧
    ∀ b a mm k,
      Event.executeDebug b a mm k ∈
        (call_contract_with_client envBase cfgDebug "0:ab" "abi" "mthd"
          "prms" none false).2 →
      b = "BCCFG" ∧ a = "ACC") :=
  ⟨rfl, rfl, rfl,
   c5_snapshot_before_submission envBase cfgDebug "0:ab" "abi" "mthd" "prms"
     none 1000 "MSG" "BOC" "ACC" "BOC" 7 "BCCFG" [Event.encodeMessage]
     rfl rfl rfl rfl rfl rfl rfl rfl rfl rfl⟩

end TonosCall
